import Mathlib

/-!
Verification of the qutility QGIS plugin tools against their
natural-language specification.  Each tool's relevant logic is shallowly
embedded as executable Lean definitions translated from the Python source
(`layer_renamer.py`, `feature_excluder.py`, `overlaps_counter.py`,
`batch_converter.py`, `layer_loader.py`); host (QGIS/Qt) primitives are
modelled as abstract parameters or oracle fields.
-/

namespace LayerRenamer

/-- Tests whether `p` is an initial segment of `s` (used to model Python
substring search inside `str.replace`). -/
def startsWith : List Char → List Char → Bool
  | [], _ => true
  | _ :: _, [] => false
  | p :: ps, c :: cs => p == c && startsWith ps cs

/-- Python `str.replace(pat, rep)`: replaces every non-overlapping occurrence
of `pat` left to right.  For an empty pattern this model is the identity;
the source only ever calls `replace` with a non-empty pattern
(`layer_renamer.py` line 201 guards on `search_text`). -/
def replaceAll (pat rep : List Char) : List Char → List Char
  | [] => []
  | c :: rest =>
    if h : pat ≠ [] ∧ startsWith pat (c :: rest) then
      rep ++ replaceAll pat rep ((c :: rest).drop pat.length)
    else
      c :: replaceAll pat rep rest
termination_by s => s.length
decreasing_by
  · simp only [List.length_drop, List.length_cons]
    cases pat with
    | nil => exact absurd rfl h.1
    | cons q qs => simp; omega
  · simp

/-- The renaming parameters read from the dialog in `rename_layers`
(`layer_renamer.py` lines 104-114): prefix, suffix, search/replace text and
the numbers of characters to strip from either side. -/
structure RenameParams where
  pre : List Char
  suf : List Char
  searchText : List Char
  replaceText : List Char
  removeLeftN : Nat
  removeRightN : Nat

/-- The per-layer name computation of `rename_layers`
(`layer_renamer.py` lines 183-210), translated guard for guard:
left strip (emptying when not strictly longer), right strip (same, skipped
on an already-empty name), text replacement (skipped for empty search text
or empty name), then prefix and suffix (each skipped when empty). -/
def computeNewName (p : RenameParams) (oldName : List Char) : List Char :=
  let n1 :=
    if p.removeLeftN > 0 then
      (if oldName.length > p.removeLeftN then oldName.drop p.removeLeftN else [])
    else oldName
  let n2 :=
    if p.removeRightN > 0 ∧ n1 ≠ [] then
      (if n1.length > p.removeRightN then n1.take (n1.length - p.removeRightN) else [])
    else n1
  let n3 :=
    if p.searchText ≠ [] ∧ n2 ≠ [] then replaceAll p.searchText p.replaceText n2
    else n2
  let n4 := if p.pre ≠ [] then p.pre ++ n3 else n3
  if p.suf ≠ [] then n4 ++ p.suf else n4

/-- The claim's description of the same computation, stated the way the
specification words it: strip left (empty unless strictly longer), strip
right likewise, replace every occurrence, prepend the prefix, append the
suffix — with no source-level guards. -/
def claimNewName (p : RenameParams) (oldName : List Char) : List Char :=
  let n1 := if oldName.length > p.removeLeftN then oldName.drop p.removeLeftN else []
  let n2 := if n1.length > p.removeRightN then n1.take (n1.length - p.removeRightN) else []
  let n3 := replaceAll p.searchText p.replaceText n2
  p.pre ++ n3 ++ p.suf

/-- The reporting loop of `rename_layers` (`layer_renamer.py` lines
178-222): for each layer the new name is computed; an empty result leaves
the layer's name unchanged and records it among the errors, otherwise the
layer is renamed and recorded among the renamed ones.  Returns the final
names, the renamed-layer report and the error report. -/
def renameLayers (p : RenameParams) (names : List (List Char)) :
    List (List Char) × List (List Char) × List (List Char) :=
  match names with
  | [] => ([], [], [])
  | n :: rest =>
    let nn := computeNewName p n
    let (finals, renamed, errs) := renameLayers p rest
    if nn = [] then
      (n :: finals, renamed, n :: errs)
    else
      (nn :: finals, nn :: renamed, errs)

end LayerRenamer

namespace FeatureExcluder

/-- Host geometry primitives used by `exclude_features`
(`feature_excluder.py` lines 441-474): emptiness test, the spatial
predicates, buffering with a tolerance and a segment count, distance, and
the two coordinate transformations to the metric CRS created at lines
351-355.  They are QGIS primitives, so they stay abstract. -/
structure GeomOps (Geom : Type) where
  isEmptyG : Geom → Bool
  equalsG : Geom → Geom → Bool
  intersectsG : Geom → Geom → Bool
  containsG : Geom → Geom → Bool
  bufferG : Geom → Int → Nat → Geom
  distanceG : Geom → Geom → Int
  transformSource : Geom → Geom
  transformMatch : Geom → Geom

/-- Host conversion of a (non-NULL) attribute value: Python `str` and
`str.lower` as used at `feature_excluder.py` lines 373-380 and 413-420. -/
structure ValueOps (V : Type) where
  toStr : V → String
  lower : String → String

/-- A vector feature as read by the excluder: id, join-field value
(`none` models a NULL attribute) and geometry (`none` models a null
geometry reference; emptiness is tested separately via `isEmptyG`). -/
structure Feature (Geom V : Type) where
  fid : Nat
  joinValue : Option V
  geom : Option Geom
deriving DecidableEq

/-- A vector layer: its CRS authority id string and its features in
enumeration order (`getFeatures`). -/
structure Layer (Geom V : Type) where
  crsAuthid : String
  features : List (Feature Geom V)
deriving DecidableEq

/-- Python dictionaries are used by `exclude_features` only through key
assignment, membership and lookup, so they are modelled by their lookup
function (assignment overwrites, i.e. the last write wins). -/
def Dict (α β : Type) : Type := α → Option β

def dEmpty {α β : Type} : Dict α β := fun _ => none

def dInsert {α β : Type} [DecidableEq α] (d : Dict α β) (k : α) (v : β) : Dict α β :=
  fun q => if q = k then some v else d q

def dGet {α β : Type} (d : Dict α β) (k : α) : Option β := d k

/-- The options read from the dialog before the analysis
(`feature_excluder.py` lines 271-310): geometry comparison flag, the
tolerance (0 when geometry comparison is off, line 310), case sensitivity
and the spatial relation string (`"intersects"`, `"contains"`, or the
`"equals"` fallback of line 271). -/
structure ExcludeParams where
  checkGeometry : Bool
  tolerance : Int
  caseSensitive : Bool
  spatialRelation : String

/-- Normalisation applied to a join value before comparison
(`feature_excluder.py` lines 373-380): string conversion, then lowering
unless the comparison is case sensitive. -/
def normalize {V : Type} (vops : ValueOps V) (caseSensitive : Bool) (v : V) : String :=
  let s := vops.toStr v
  if caseSensitive then s else vops.lower s

/-- The two dictionaries built from the match layer
(`feature_excluder.py` lines 326-327): join value → feature id, and
feature id → (transformed) geometry. -/
structure MatchData (Geom : Type) where
  matchFeatures : Dict String Nat
  matchGeometries : Dict Nat Geom

/-- One iteration of the match-layer loop (`feature_excluder.py` lines
365-398): NULL join values are skipped; the feature id is stored under the
normalised value (overwriting any previous feature with that value); when
geometry checking is on and the geometry is present and non-empty it is
stored under the feature id, transformed to the metric CRS first when the
match layer needs transforming. -/
def buildStep {Geom V : Type} (ops : GeomOps Geom) (vops : ValueOps V)
    (p : ExcludeParams) (needTransformMatch : Bool)
    (md : MatchData Geom) (f : Feature Geom V) : MatchData Geom :=
  match f.joinValue with
  | none => md
  | some v =>
    let key := normalize vops p.caseSensitive v
    let mf := dInsert md.matchFeatures key f.fid
    let mg :=
      if p.checkGeometry then
        match f.geom with
        | some g =>
          if ops.isEmptyG g then md.matchGeometries
          else
            dInsert md.matchGeometries f.fid
              (if needTransformMatch then ops.transformMatch g else g)
        | none => md.matchGeometries
      else md.matchGeometries
    ⟨mf, mg⟩

/-- The whole match-layer loop. -/
def buildMatchData {Geom V : Type} (ops : GeomOps Geom) (vops : ValueOps V)
    (p : ExcludeParams) (needTransformMatch : Bool)
    (fs : List (Feature Geom V)) : MatchData Geom :=
  fs.foldl (buildStep ops vops p needTransformMatch) ⟨dEmpty, dEmpty⟩

/-- The geometry-difference decision (`feature_excluder.py` lines
442-474): exact equality when the tolerance is not positive; otherwise the
selected spatial relation on tolerance-buffered geometries (buffers use 5
segments, lines 454-467); any other relation falls back to a distance
test. -/
def isDifferent {Geom : Type} (ops : GeomOps Geom) (rel : String) (tol : Int)
    (sg mg : Geom) : Bool :=
  if tol ≤ 0 then
    !(ops.equalsG sg mg)
  else if rel = "intersects" then
    let sourceBuffer := ops.bufferG sg tol 5
    let matchBuffer := ops.bufferG mg tol 5
    !(ops.intersectsG sg matchBuffer || ops.intersectsG mg sourceBuffer)
  else if rel = "contains" then
    !(ops.containsG (ops.bufferG sg tol 5) mg)
  else
    ops.distanceG sg mg > tol

/-- Accumulator of the source-layer loop: the deletion list, the
different-geometry list, and a trace of the geometry pairs actually handed
to the spatial comparison (in the order they are compared). -/
structure SourceResult (Geom : Type) where
  toDelete : List Nat
  diffGeom : List Nat
  compared : List (Geom × Geom)

/-- One iteration of the source-layer loop (`feature_excluder.py` lines
405-477): NULL join values are skipped; a feature whose normalised value
is a key of the lookup is appended to the deletion list; when geometry
checking is on, its non-empty geometry (transformed to metric first when
the source layer needs transforming) is compared with the stored geometry
of the looked-up match feature, and the feature id is appended to the
different-geometry list when `isDifferent` holds. -/
def sourceStep {Geom V : Type} (ops : GeomOps Geom) (vops : ValueOps V)
    (p : ExcludeParams) (needTransformSource : Bool) (md : MatchData Geom)
    (acc : SourceResult Geom) (f : Feature Geom V) : SourceResult Geom :=
  match f.joinValue with
  | none => acc
  | some v =>
    let key := normalize vops p.caseSensitive v
    match dGet md.matchFeatures key with
    | none => acc
    | some matchId =>
      let acc1 : SourceResult Geom :=
        ⟨acc.toDelete ++ [f.fid], acc.diffGeom, acc.compared⟩
      if p.checkGeometry then
        match f.geom with
        | some sg0 =>
          if ops.isEmptyG sg0 then acc1
          else
            let sg := if needTransformSource then ops.transformSource sg0 else sg0
            match dGet md.matchGeometries matchId with
            | some mg =>
              if isDifferent ops p.spatialRelation p.tolerance sg mg then
                ⟨acc1.toDelete, acc1.diffGeom ++ [f.fid], acc1.compared ++ [(sg, mg)]⟩
              else
                ⟨acc1.toDelete, acc1.diffGeom, acc1.compared ++ [(sg, mg)]⟩
            | none => acc1
        | none => acc1
      else acc1

/-- The whole source-layer loop. -/
def processSource {Geom V : Type} (ops : GeomOps Geom) (vops : ValueOps V)
    (p : ExcludeParams) (needTransformSource : Bool) (md : MatchData Geom)
    (fs : List (Feature Geom V)) : SourceResult Geom :=
  fs.foldl (sourceStep ops vops p needTransformSource md) ⟨[], [], []⟩

/-- Output of the analysis phase of `exclude_features`
(`feature_excluder.py` lines 324-477): the two id lists, the comparison
trace, and the two layers as the analysis leaves them.  The analysis only
reads the layers — the code transforms a copy (`QgsGeometry(geom)`, lines
391 and 436) and never writes through the layer API — so the embedding
returns them unchanged. -/
structure ExcludeOutput (Geom V : Type) where
  toDelete : List Nat
  diffGeom : List Nat
  compared : List (Geom × Geom)
  sourceAfter : Layer Geom V
  matchAfter : Layer Geom V

/-- Whether a layer's geometries must be transformed to the metric CRS:
only when geometry comparison is on, and only when the CRS authority id
differs from `"EPSG:32632"` (`feature_excluder.py` lines 342-344). -/
def needsTransform {Geom V : Type} (p : ExcludeParams) (l : Layer Geom V) : Bool :=
  p.checkGeometry && decide (l.crsAuthid ≠ "EPSG:32632")

/-- The analysis phase of `exclude_features`: the transformation needs are
decided per layer, the match lookup is built, and the source features are
scanned. -/
def excludeAnalysis {Geom V : Type} (ops : GeomOps Geom) (vops : ValueOps V)
    (p : ExcludeParams) (sourceLayer matchLayer : Layer Geom V) :
    ExcludeOutput Geom V :=
  let needTransformSource := needsTransform p sourceLayer
  let needTransformMatch := needsTransform p matchLayer
  let md := buildMatchData ops vops p needTransformMatch matchLayer.features
  let r := processSource ops vops p needTransformSource md sourceLayer.features
  ⟨r.toDelete, r.diffGeom, r.compared, sourceLayer, matchLayer⟩

/-- The normalised join key of a feature, `none` for a NULL value. -/
def keyOf {Geom V : Type} (vops : ValueOps V) (p : ExcludeParams)
    (f : Feature Geom V) : Option String :=
  f.joinValue.map (normalize vops p.caseSensitive)

/-- The match id a source feature looks up, if any. -/
def matchedIdOf {Geom V : Type} (vops : ValueOps V) (p : ExcludeParams)
    (md : MatchData Geom) (f : Feature Geom V) : Option Nat :=
  match f.joinValue with
  | none => none
  | some v => dGet md.matchFeatures (normalize vops p.caseSensitive v)

/-- Whether a source feature is appended to the deletion list. -/
def deletesF {Geom V : Type} (vops : ValueOps V) (p : ExcludeParams)
    (md : MatchData Geom) (f : Feature Geom V) : Bool :=
  (matchedIdOf vops p md f).isSome

/-- The geometry pair a source feature contributes to the comparison
trace, if any. -/
def comparedPairOf {Geom V : Type} (ops : GeomOps Geom) (vops : ValueOps V)
    (p : ExcludeParams) (needTransformSource : Bool) (md : MatchData Geom)
    (f : Feature Geom V) : Option (Geom × Geom) :=
  match matchedIdOf vops p md f with
  | none => none
  | some matchId =>
    if p.checkGeometry then
      match f.geom with
      | some sg0 =>
        if ops.isEmptyG sg0 then none
        else
          let sg := if needTransformSource then ops.transformSource sg0 else sg0
          (dGet md.matchGeometries matchId).map (fun mg => (sg, mg))
      | none => none
    else none

/-- Whether a source feature is appended to the different-geometry list. -/
def diffF {Geom V : Type} (ops : GeomOps Geom) (vops : ValueOps V)
    (p : ExcludeParams) (needTransformSource : Bool) (md : MatchData Geom)
    (f : Feature Geom V) : Bool :=
  match comparedPairOf ops vops p needTransformSource md f with
  | none => false
  | some pr => isDifferent ops p.spatialRelation p.tolerance pr.1 pr.2

/-- The geometry the match-layer loop stores for a feature, if any:
present and non-empty, transformed when the match layer needs it, and only
for non-NULL join values with geometry checking on. -/
def storedGeomOf {Geom V : Type} (ops : GeomOps Geom) (p : ExcludeParams)
    (needTransformMatch : Bool) (f : Feature Geom V) : Option Geom :=
  match f.joinValue with
  | none => none
  | some _ =>
    if p.checkGeometry then
      match f.geom with
      | some g =>
        if ops.isEmptyG g then none
        else some (if needTransformMatch then ops.transformMatch g else g)
      | none => none
    else none

/-- The last feature of `fs` (in enumeration order) whose normalised join
key is `key`. -/
def lastWithKey {Geom V : Type} (vops : ValueOps V) (p : ExcludeParams)
    (fs : List (Feature Geom V)) (key : String) : Option (Feature Geom V) :=
  fs.reverse.find? (fun f => decide (keyOf vops p f = some key))

/-- A small concrete geometry algebra on integers, used to evaluate the
theorems on concrete inputs. -/
def sampleOps : GeomOps Int where
  isEmptyG := fun _ => false
  equalsG := fun a b => a == b
  intersectsG := fun a b => a == b
  containsG := fun a b => b ≤ a
  bufferG := fun g t _ => g + t
  distanceG := fun a b => if a ≥ b then a - b else b - a
  transformSource := fun g => g + 1000
  transformMatch := fun g => g + 1000

/-- Concrete value conversion for natural-number join values. -/
def sampleVOps : ValueOps Nat where
  toStr := fun n => toString n
  lower := fun s => s

/-- Concrete parameters: geometry comparison on, tolerance 1, case
sensitive, relation "intersects". -/
def pSample : ExcludeParams := ⟨true, 1, true, "intersects"⟩

/-- Concrete source layer for evaluating the analysis. -/
def srcSample : Layer Int Nat := ⟨"EPSG:32632", [⟨2, some 5, some 50⟩]⟩

/-- Concrete match layer for evaluating the analysis. -/
def mtcSample : Layer Int Nat := ⟨"EPSG:32632", [⟨1, some 5, some 10⟩]⟩

/-- Concrete source layer with a NULL join value in feature 7. -/
def srcNull : Layer Int Nat := ⟨"EPSG:32632", [⟨7, none, some 3⟩, ⟨8, some 1, some 4⟩]⟩

/-- Concrete match layer in a non-metric CRS. -/
def mtcOther : Layer Int Nat := ⟨"EPSG:4326", [⟨1, some 1, some 5⟩]⟩

/-- Concrete match layer with two features sharing join value 5. -/
def mtcDup : Layer Int Nat := ⟨"EPSG:32632", [⟨1, some 5, some 10⟩, ⟨2, some 5, some 20⟩]⟩

/-- Concrete source layer matching the duplicated value. -/
def srcDup : Layer Int Nat := ⟨"EPSG:32632", [⟨3, some 5, some 20⟩]⟩

end FeatureExcluder

namespace OverlapsCounter

/-- The seven child algorithms of the `num_cavi_su_infrastruttua` model
(`overlaps_counter.py` lines 30-132), in execution order. -/
inductive ChildAlg where
  | bufferCavi
  | idProgressivoCavi
  | riparaGeometrieInfrastruttura
  | idProgressivoInfrastruttura
  | associaIdCavSullinfrastruttura
  | aggregaPerIdDellinfrastruttura
  | campoNumeroCaviSovrapposti
deriving DecidableEq

/-- The model's child algorithms in order. -/
def childAlgs : List ChildAlg :=
  [ChildAlg.bufferCavi, ChildAlg.idProgressivoCavi,
   ChildAlg.riparaGeometrieInfrastruttura, ChildAlg.idProgressivoInfrastruttura,
   ChildAlg.associaIdCavSullinfrastruttura, ChildAlg.aggregaPerIdDellinfrastruttura,
   ChildAlg.campoNumeroCaviSovrapposti]

/-- `processAlgorithm` (`overlaps_counter.py` lines 23-133): the seven
child algorithms run in order; after each of the first six, the current
step is set and the host feedback's cancel flag is checked
(`isCanceled k` is its value at the check following `setCurrentStep(k)`),
returning the empty result dictionary immediately when set.  The embedding
returns the list of child algorithms actually run together with the keys
of the result dictionary. -/
def processAlgorithm (isCanceled : Nat → Bool) : List ChildAlg × List String :=
  let executed := [ChildAlg.bufferCavi]
  if isCanceled 1 then (executed, []) else
  let executed := executed ++ [ChildAlg.idProgressivoCavi]
  if isCanceled 2 then (executed, []) else
  let executed := executed ++ [ChildAlg.riparaGeometrieInfrastruttura]
  if isCanceled 3 then (executed, []) else
  let executed := executed ++ [ChildAlg.idProgressivoInfrastruttura]
  if isCanceled 4 then (executed, []) else
  let executed := executed ++ [ChildAlg.associaIdCavSullinfrastruttura]
  if isCanceled 5 then (executed, []) else
  let executed := executed ++ [ChildAlg.aggregaPerIdDellinfrastruttura]
  if isCanceled 6 then (executed, []) else
  let executed := executed ++ [ChildAlg.campoNumeroCaviSovrapposti]
  (executed, ["InfrastrutturaConNcavi"])

end OverlapsCounter

namespace BatchConverter

/-- The outcome of converting one file of the batch, abstracting the host
conversion machinery of `start_conversion` (`batch_converter.py` lines
748-949): success, a reported failure (e.g. "Conversione fallita" or
"File non creato"), or an exception reaching the per-file handler of
lines 957-973. -/
inductive FileOutcome where
  | ok
  | failed (msg : String)
  | raised (msg : String)
deriving DecidableEq

/-- The final status string a row receives (`update_file_status`). -/
def statusOf (oc : FileOutcome) : String :=
  match oc with
  | .ok => "Completato"
  | .failed _ => "Errore"
  | .raised _ => "Errore"

/-- The message a failing row contributes to the error log. -/
def msgOf (oc : FileOutcome) : Option String :=
  match oc with
  | .ok => none
  | .failed m => some m
  | .raised m => some m

/-- The loop's mutable state: the two counters (`batch_converter.py`
lines 682-683), the per-row status column, and the error log. -/
structure LoopState where
  successCount : Nat
  errorCount : Nat
  statuses : List String
  log : List String
deriving DecidableEq

/-- One iteration of the conversion loop (`batch_converter.py` lines
730-973): the row is first marked "In elaborazione" (line 745); success
marks it "Completato" and bumps the success count (lines 920-921 and
944-946); a reported failure or a caught exception marks it "Errore",
bumps the error count and logs the message (lines 922-924, 926-934,
947-949, 957-966) — the loop then continues with the next row. -/
def processRow (st : LoopState) (row : Nat) (oc : FileOutcome) : LoopState :=
  let st1 : LoopState := { st with statuses := st.statuses.set row "In elaborazione" }
  match oc with
  | .ok =>
    { st1 with
      statuses := st1.statuses.set row "Completato"
      successCount := st1.successCount + 1 }
  | .failed m =>
    { st1 with
      statuses := st1.statuses.set row "Errore"
      errorCount := st1.errorCount + 1
      log := st1.log ++ [m] }
  | .raised m =>
    { st1 with
      statuses := st1.statuses.set row "Errore"
      errorCount := st1.errorCount + 1
      log := st1.log ++ [m] }

/-- The conversion loop `for row in range(rowCount)` of
`start_conversion`. -/
def convertLoop (row : Nat) (st : LoopState) : List FileOutcome → LoopState
  | [] => st
  | oc :: rest => convertLoop (row + 1) (processRow st row oc) rest

/-- `start_conversion`'s processing phase (`batch_converter.py` lines
672-986): statuses are reset to "In attesa" (lines 673-674), the counters
start at zero, every row is processed, and the completion message reports
the success and error counts (lines 979-981), returned here as the second
component. -/
def runConversion (outcomes : List FileOutcome) : LoopState × (Nat × Nat) :=
  let init : LoopState := ⟨0, 0, outcomes.map (fun _ => "In attesa"), []⟩
  let final := convertLoop 0 init outcomes
  (final, (final.successCount, final.errorCount))

/-- The host/filesystem oracle for one `convert_to_mapinfo` run
(`batch_converter.py` lines 1481-1653): whether the direct ogr2ogr
attempt creates the output (lines 1509-1512), whether the input layer is
valid (1518-1521), whether the sanitised memory layer is valid and
non-empty (1524-1529), whether the intermediate GeoJSON write succeeds
(1539-1555), whether the temp file then exists (1558-1563), whether the
temp GeoJSON loads as a valid layer (1576-1582), whether the processing
call raises (1594-1618), whether the output file exists after it
(1599-1612), and whether the final ogr2ogr run on the GeoJSON creates the
output (1622-1635). -/
structure MapinfoEnv where
  ogrDirectOk : Bool
  inputLayerValid : Bool
  sanitizedOk : Bool
  geojsonWriteOk : Bool
  tempExists : Bool
  tempLayerValid : Bool
  processingRaises : Bool
  outputExists : Bool
  ogrFromGeojsonOk : Bool
deriving DecidableEq

/-- `convert_to_mapinfo` (`batch_converter.py` lines 1481-1653) as a
function of the oracle, branch for branch: attempt 1 returns immediately
on success; the preparation of attempt 2 returns failure at its first
broken step; a processing exception or a missing output file falls
through to attempt 3 on the intermediate GeoJSON; everything is inside a
catch-all, so the function never raises. -/
def convert_to_mapinfo (e : MapinfoEnv) : Bool :=
  if e.ogrDirectOk then true
  else if !e.inputLayerValid then false
  else if !e.sanitizedOk then false
  else if !e.geojsonWriteOk then false
  else if !e.tempExists then false
  else if !e.tempLayerValid then false
  else if e.processingRaises then e.ogrFromGeojsonOk
  else if e.outputExists then true
  else e.ogrFromGeojsonOk

/-- The claim's reading of the fallback chain: the conversion succeeds
iff one of the three strategies produces the output file — (1) direct
ogr2ogr, (2) sanitisation, intermediate GeoJSON and save-features, (3)
ogr2ogr on that intermediate GeoJSON. -/
def mapinfoClaimResult (e : MapinfoEnv) : Bool :=
  let geojsonReady :=
    e.inputLayerValid && e.sanitizedOk && e.geojsonWriteOk && e.tempExists
  let second := geojsonReady && e.tempLayerValid && !e.processingRaises && e.outputExists
  let third := geojsonReady && e.ogrFromGeojsonOk
  e.ogrDirectOk || second || third

/-- Oracle on which the code and the claim disagree: the direct attempt
fails, the intermediate GeoJSON is produced but fails host layer
validation, and the final ogr2ogr on it would succeed. -/
def mapinfoCounterEnv : MapinfoEnv :=
  ⟨false, true, true, true, true, false, false, false, true⟩

end BatchConverter

namespace ErrHandling

/-- Observable UI state for the error-handling claims: whether the
tool's controls are enabled, and the dialogs shown so far. -/
structure UIState where
  controlsEnabled : Bool
  dialogs : List String
deriving DecidableEq

/-- A UI computation: it finishes normally or raises an exception value
(modelling a Python exception), in both cases with the updated state. -/
def M : Type := UIState → Except String Unit × UIState

/-- The computation that does nothing. -/
def mPure : M := fun s => (Except.ok (), s)

/-- A computation that raises. -/
def mRaise (e : String) : M := fun s => (Except.error e, s)

/-- `toggle_controls`. -/
def setControls (b : Bool) : M := fun s => (Except.ok (), { s with controlsEnabled := b })

/-- Showing a modal dialog. -/
def showDialog (d : String) : M :=
  fun s => (Except.ok (), { s with dialogs := s.dialogs ++ [d] })

/-- Sequencing: a raised exception skips the rest. -/
def mSeq (a b : M) : M := fun s =>
  match a s with
  | (Except.ok _, t) => b t
  | (Except.error e, t) => (Except.error e, t)

/-- Python `try/except Exception`: the handler receives the exception. -/
def mTry (body : M) (handler : String → M) : M := fun s =>
  match body s with
  | (Except.ok _, t) => (Except.ok (), t)
  | (Except.error e, t) => handler e t

/-- Python `try/finally`: the final step always runs; an exception from
the body is re-raised after it. -/
def mFinally (body fin : M) : M := fun s =>
  match body s with
  | (Except.ok _, t) => fin t
  | (Except.error e, t) =>
    match fin t with
    | (Except.ok _, u) => (Except.error e, u)
    | (Except.error e2, u) => (Except.error e2, u)

/-- The `exclude_features` run-button structure (`feature_excluder.py`
lines 312-775): disable controls, run the operation body inside `try`,
show a critical dialog on any exception (line 763), re-enable controls in
`finally` (line 775). -/
def excludeFeaturesHandler (body : M) : M :=
  mSeq (setControls false)
    (mFinally (mTry body (fun e => showDialog ("Error: " ++ e)))
      (setControls true))

/-- The `start_conversion` run-button structure (`batch_converter.py`
lines 669-1009): same `try/except/finally` shape, critical dialog at line
995, re-enable at line 1006. -/
def startConversionHandler (body : M) : M :=
  mSeq (setControls false)
    (mFinally (mTry body (fun e => showDialog ("Errore: " ++ e)))
      (setControls true))

/-- The `load_layers` run-button structure (`layer_loader.py` lines
594-664): `try/except/finally`; warning dialog at line 638; the `finally`
re-enables the controls and shows the completion dialog. -/
def loadLayersHandler (body : M) : M :=
  mSeq (setControls false)
    (mFinally (mTry body (fun e => showDialog ("Errore: " ++ e)))
      (mSeq (setControls true) (showDialog "completion")))

/-- The per-layer loop of `rename_layers` (`layer_renamer.py` lines
178-222): each layer's work runs in a narrow `try` whose handler appends
an error entry — re-reading `layer.name()` (line 222), which can itself
raise. -/
def renameLoop : List (M × M) → M
  | [] => mPure
  | (body, handlerStep) :: rest =>
    mSeq (mTry body (fun _ => handlerStep)) (renameLoop rest)

/-- The `rename_layers` run-button structure (`layer_renamer.py` lines
160-250): controls disabled, the per-layer loop, then — on the normal
path only, there being no broad `except` and no `finally` — controls
re-enabled (line 228) and the completion dialog shown (line 247). -/
def renameLayersHandler (layerSteps : List (M × M)) : M :=
  mSeq (setControls false)
    (mSeq (renameLoop layerSteps)
      (mSeq (setControls true) (showDialog "completion")))

/-- A concrete starting state: controls enabled, no dialogs shown. -/
def s0 : UIState := ⟨true, []⟩

end ErrHandling

namespace LayerLoader

/-- The loader's own mutable state beyond widget values: the
`created_groups` set (`layer_loader.py` line 48), modelled as the list of
group ids added, in insertion order. -/
structure LoaderState where
  createdGroups : List Nat
deriving DecidableEq

/-- Set insertion. -/
def insertGroup (gs : List Nat) (g : Nat) : List Nat :=
  if g ∈ gs then gs else gs ++ [g]

/-- `process_compressed_file` (`layer_loader.py` lines 328-483): when the
group option is on, the archive group is created and added to
`created_groups` (lines 370-378); how many layers load is
host-determined (`loaded`).  Nothing removes the group from the set. -/
def processCompressedFile (checkGroup : Bool) (gid : Nat) (loaded : Nat)
    (st : LoaderState) : Nat × LoaderState :=
  if checkGroup then (loaded, ⟨insertGroup st.createdGroups gid⟩) else (loaded, st)

/-- `load_layers` on an archive source (`layer_loader.py` lines 611-615):
it delegates to `process_compressed_file`; no code clears
`created_groups` when the action finishes. -/
def loadLayersArchive (checkGroup : Bool) (gid : Nat) (loaded : Nat)
    (st : LoaderState) : Nat × LoaderState :=
  processCompressedFile checkGroup gid loaded st

/-- `load_layer` (`layer_loader.py` lines 485-544) starts by resetting
`created_groups` to a fresh empty set (line 489). -/
def loadLayerReset (st : LoaderState) : LoaderState := ⟨[]⟩

end LayerLoader
namespace LayerRenamer

theorem replaceAll_nil_pat (rep : List Char) (s : List Char) :
    replaceAll [] rep s = s := by
  induction s with
  | nil => rw [replaceAll]
  | cons c rest ih =>
    rw [replaceAll]
    simp [ih]

theorem replaceAll_nil_str (pat rep : List Char) :
    replaceAll pat rep [] = [] := by
  rw [replaceAll]

theorem guardLeft (n : Nat) (s : List Char) :
    (if n > 0 then (if s.length > n then s.drop n else []) else s) =
      (if s.length > n then s.drop n else []) := by
  by_cases h : n > 0
  · simp [h]
  · have h0 : n = 0 := by omega
    subst h0
    cases s <;> simp

theorem guardRight (n : Nat) (s : List Char) :
    (if n > 0 ∧ s ≠ [] then (if s.length > n then s.take (s.length - n) else []) else s) =
      (if s.length > n then s.take (s.length - n) else []) := by
  by_cases hs : s = []
  · subst hs; simp
  · by_cases h : n > 0
    · simp [h, hs]
    · have h0 : n = 0 := by omega
      subst h0
      have hpos : s.length > 0 := List.length_pos.mpr hs
      simp [hpos, List.take_length]

theorem guardReplace (pat rep s : List Char) :
    (if pat ≠ [] ∧ s ≠ [] then replaceAll pat rep s else s) =
      replaceAll pat rep s := by
  by_cases hp : pat = []
  · simp [hp, replaceAll_nil_pat]
  · by_cases hs : s = []
    · subst hs; simp [replaceAll_nil_str]
    · simp [hp, hs]

theorem guardPre (a s : List Char) :
    (if a ≠ [] then a ++ s else s) = a ++ s := by
  by_cases h : a = [] <;> simp [h]

theorem guardSuf (a s : List Char) :
    (if a ≠ [] then s ++ a else s) = s ++ a := by
  by_cases h : a = [] <;> simp [h]

theorem computeNewName_eq_claim (p : RenameParams) (oldName : List Char) :
    computeNewName p oldName = claimNewName p oldName := by
  simp only [computeNewName, claimNewName, guardLeft, guardRight, guardReplace,
    guardPre]
  by_cases h : p.suf = [] <;> simp [h, List.append_assoc]

/-- C8: the renamer computes each new name by stripping the given number
of characters from the left (empty when the name is not strictly longer),
then from the right likewise, replacing every occurrence of the search
text, prepending the prefix and appending the suffix — in that order; a
layer whose resulting name is empty keeps its original name and is
reported as an error instead of being renamed. -/
theorem c8_rename_pipeline (p : RenameParams) (names : List (List Char)) :
    (∀ n, computeNewName p n = claimNewName p n) ∧
    renameLayers p names =
      (names.map (fun n => if claimNewName p n = [] then n else claimNewName p n),
       (names.filter (fun n => !decide (claimNewName p n = []))).map (claimNewName p),
       names.filter (fun n => decide (claimNewName p n = []))) := by
  refine ⟨computeNewName_eq_claim p, ?_⟩
  induction names with
  | nil => simp [renameLayers]
  | cons n rest ih =>
    rw [renameLayers]
    rw [ih, computeNewName_eq_claim]
    by_cases h : claimNewName p n = [] <;> simp [h]

end LayerRenamer

namespace FeatureExcluder

theorem dGet_dInsert {α β : Type} [DecidableEq α] (d : Dict α β) (k q : α) (v : β) :
    dGet (dInsert d k v) q = if q = k then some v else dGet d q := rfl

theorem sourceStep_eq {Geom V : Type} (ops : GeomOps Geom) (vops : ValueOps V)
    (p : ExcludeParams) (nts : Bool) (md : MatchData Geom)
    (acc : SourceResult Geom) (f : Feature Geom V) :
    sourceStep ops vops p nts md acc f =
      ⟨acc.toDelete ++ (if deletesF vops p md f then [f.fid] else []),
       acc.diffGeom ++ (if diffF ops vops p nts md f then [f.fid] else []),
       acc.compared ++ (comparedPairOf ops vops p nts md f).toList⟩ := by
  unfold sourceStep deletesF diffF comparedPairOf matchedIdOf
  rcases Option.eq_none_or_eq_some f.joinValue with hjv | ⟨v, hjv⟩
  · simp [hjv]
  · simp only [hjv]
    rcases Option.eq_none_or_eq_some
        (dGet md.matchFeatures (normalize vops p.caseSensitive v)) with hmf | ⟨matchId, hmf⟩
    · simp [hmf]
    · simp only [hmf]
      cases hcg : p.checkGeometry with
      | false => simp
      | true =>
        simp only [if_pos]
        rcases Option.eq_none_or_eq_some f.geom with hg | ⟨sg0, hg⟩
        · simp [hg]
        · simp only [hg]
          cases he : ops.isEmptyG sg0 with
          | true => simp
          | false =>
            simp only [Bool.false_eq_true, if_neg, not_false_iff]
            rcases Option.eq_none_or_eq_some (dGet md.matchGeometries matchId) with
              hmg | ⟨mg, hmg⟩
            · simp [hmg]
            · simp only [hmg]
              cases hdiff : isDifferent ops p.spatialRelation p.tolerance
                  (if nts then ops.transformSource sg0 else sg0) mg with
              | true => simp [hdiff]
              | false => simp [hdiff]

theorem processSource_go {Geom V : Type} (ops : GeomOps Geom) (vops : ValueOps V)
    (p : ExcludeParams) (nts : Bool) (md : MatchData Geom)
    (fs : List (Feature Geom V)) (acc : SourceResult Geom) :
    fs.foldl (sourceStep ops vops p nts md) acc =
      ⟨acc.toDelete ++ (fs.filter (deletesF vops p md)).map (·.fid),
       acc.diffGeom ++ (fs.filter (diffF ops vops p nts md)).map (·.fid),
       acc.compared ++ fs.filterMap (comparedPairOf ops vops p nts md)⟩ := by
  induction fs generalizing acc with
  | nil => simp
  | cons f fs ih =>
    rw [List.foldl_cons, sourceStep_eq, ih]
    by_cases hd : deletesF vops p md f <;>
      by_cases hdf : diffF ops vops p nts md f <;>
      cases hcp : comparedPairOf ops vops p nts md f <;>
      simp [hd, hdf, hcp, List.filter_cons, List.filterMap_cons]

theorem processSource_eq {Geom V : Type} (ops : GeomOps Geom) (vops : ValueOps V)
    (p : ExcludeParams) (nts : Bool) (md : MatchData Geom)
    (fs : List (Feature Geom V)) :
    processSource ops vops p nts md fs =
      ⟨(fs.filter (deletesF vops p md)).map (·.fid),
       (fs.filter (diffF ops vops p nts md)).map (·.fid),
       fs.filterMap (comparedPairOf ops vops p nts md)⟩ := by
  unfold processSource
  rw [processSource_go]
  simp

theorem buildStep_matchFeatures {Geom V : Type} (ops : GeomOps Geom)
    (vops : ValueOps V) (p : ExcludeParams) (ntm : Bool)
    (md : MatchData Geom) (f : Feature Geom V) :
    (buildStep ops vops p ntm md f).matchFeatures =
      match keyOf vops p f with
      | none => md.matchFeatures
      | some k => dInsert md.matchFeatures k f.fid := by
  unfold buildStep keyOf
  cases f.joinValue <;> simp

theorem buildStep_matchGeometries {Geom V : Type} (ops : GeomOps Geom)
    (vops : ValueOps V) (p : ExcludeParams) (ntm : Bool)
    (md : MatchData Geom) (f : Feature Geom V) :
    (buildStep ops vops p ntm md f).matchGeometries =
      match storedGeomOf ops p ntm f with
      | none => md.matchGeometries
      | some g => dInsert md.matchGeometries f.fid g := by
  unfold buildStep storedGeomOf
  cases f.joinValue with
  | none => simp
  | some v =>
    simp only
    cases p.checkGeometry with
    | false => simp
    | true =>
      simp only [if_pos]
      cases f.geom with
      | none => simp
      | some g =>
        cases he : ops.isEmptyG g <;> simp [he]

theorem lookup_buildMatchData {Geom V : Type} (ops : GeomOps Geom)
    (vops : ValueOps V) (p : ExcludeParams) (ntm : Bool)
    (fs : List (Feature Geom V)) (key : String) :
    dGet (buildMatchData ops vops p ntm fs).matchFeatures key =
      (lastWithKey vops p fs key).map (·.fid) := by
  induction fs using List.reverseRecOn with
  | nil => simp [buildMatchData, lastWithKey, dGet, dEmpty]
  | append_singleton fs f ih =>
    unfold buildMatchData at *
    rw [List.foldl_append, List.foldl_cons, List.foldl_nil, buildStep_matchFeatures]
    unfold lastWithKey at *
    rw [List.reverse_append]
    simp only [List.reverse_cons, List.reverse_nil, List.nil_append,
      List.singleton_append]
    cases hk : keyOf vops p f with
    | none =>
      simp [hk, List.find?_cons, ih]
    | some k =>
      by_cases hkey : key = k
      · subst hkey
        simp [hk, List.find?_cons, dGet_dInsert]
      · simp [hk, List.find?_cons, dGet_dInsert, hkey, Ne.symm hkey, ih]

theorem lookupGeom_buildMatchData {Geom V : Type} (ops : GeomOps Geom)
    (vops : ValueOps V) (p : ExcludeParams) (ntm : Bool)
    (fs : List (Feature Geom V)) (i : Nat) :
    dGet (buildMatchData ops vops p ntm fs).matchGeometries i =
      fs.reverse.findSome?
        (fun f => if f.fid = i then storedGeomOf ops p ntm f else none) := by
  induction fs using List.reverseRecOn with
  | nil => simp [buildMatchData, dGet, dEmpty]
  | append_singleton fs f ih =>
    unfold buildMatchData at *
    rw [List.foldl_append, List.foldl_cons, List.foldl_nil, buildStep_matchGeometries]
    rw [List.reverse_append]
    simp only [List.reverse_cons, List.reverse_nil, List.nil_append,
      List.singleton_append]
    cases hs : storedGeomOf ops p ntm f with
    | none =>
      by_cases hf : f.fid = i <;> simp [hs, List.findSome?_cons, hf, ih]
    | some g =>
      by_cases hf : f.fid = i
      · simp [hs, List.findSome?_cons, hf, dGet_dInsert]
      · simp [hs, List.findSome?_cons, hf, dGet_dInsert, ih, Ne.symm hf]

theorem findSome?_eq_of_unique {α β : Type} (l : List α) (h : α → Option β)
    (m : α) (hm : m ∈ l) (huniq : ∀ x ∈ l, h x ≠ none → x = m) :
    l.findSome? h = h m := by
  induction l with
  | nil => cases hm
  | cons a l ih =>
    rw [List.findSome?_cons]
    cases hha : h a with
    | some b =>
      have ham : a = m := huniq a (List.mem_cons_self a l) (by simp [hha])
      subst ham
      rw [hha]
    | none =>
      cases List.mem_cons.mp hm with
      | inl heq =>
        subst heq
        rw [hha]
        rw [List.findSome?_eq_none_iff]
        intro x hx
        by_contra hc
        have hxm := huniq x (List.mem_cons_of_mem m hx) hc
        subst hxm
        exact hc hha
      | inr hmem =>
        exact ih hmem (fun x hx hhx => huniq x (List.mem_cons_of_mem a hx) hhx)

end FeatureExcluder

namespace FeatureExcluder

theorem comparedPairOf_some {Geom V : Type} {ops : GeomOps Geom}
    {vops : ValueOps V} {p : ExcludeParams} {nts : Bool} {md : MatchData Geom}
    {f : Feature Geom V} {pr : Geom × Geom}
    (h : comparedPairOf ops vops p nts md f = some pr) :
    ∃ mid, matchedIdOf vops p md f = some mid ∧
      p.checkGeometry = true ∧
      ∃ sg0, f.geom = some sg0 ∧ ops.isEmptyG sg0 = false ∧
        pr.1 = (if nts then ops.transformSource sg0 else sg0) ∧
        dGet md.matchGeometries mid = some pr.2 := by
  unfold comparedPairOf at h
  rcases Option.eq_none_or_eq_some (matchedIdOf vops p md f) with hmi | ⟨mid, hmi⟩
  · simp [hmi] at h
  · simp only [hmi] at h
    cases hcg : p.checkGeometry with
    | false => simp [hcg] at h
    | true =>
      simp only [hcg, if_true] at h
      rcases Option.eq_none_or_eq_some f.geom with hg | ⟨sg0, hg⟩
      · simp [hg] at h
      · simp only [hg] at h
        cases he : ops.isEmptyG sg0 with
        | true => simp [he] at h
        | false =>
          simp only [he, Bool.false_eq_true, if_false] at h
          rcases Option.map_eq_some'.mp h with ⟨mg, hmg, hpr⟩
          refine ⟨mid, hmi, rfl, sg0, hg, he, ?_, ?_⟩
          · rw [← hpr]
          · rw [← hpr]; exact hmg

theorem storedGeomOf_some {Geom V : Type} {ops : GeomOps Geom}
    {p : ExcludeParams} {ntm : Bool} {f : Feature Geom V} {g : Geom}
    (h : storedGeomOf ops p ntm f = some g) :
    p.checkGeometry = true ∧ (∃ v, f.joinValue = some v) ∧
      ∃ g0, f.geom = some g0 ∧ ops.isEmptyG g0 = false ∧
        g = (if ntm then ops.transformMatch g0 else g0) := by
  unfold storedGeomOf at h
  rcases Option.eq_none_or_eq_some f.joinValue with hv | ⟨v, hv⟩
  · simp [hv] at h
  · simp only [hv] at h
    cases hcg : p.checkGeometry with
    | false => simp [hcg] at h
    | true =>
      simp only [hcg, if_true] at h
      rcases Option.eq_none_or_eq_some f.geom with hg | ⟨g0, hg⟩
      · simp [hg] at h
      · simp only [hg] at h
        cases he : ops.isEmptyG g0 with
        | true => simp [he] at h
        | false =>
          simp only [he, Bool.false_eq_true, if_false, Option.some.injEq] at h
          exact ⟨rfl, ⟨v, hv⟩, g0, hg, he, h.symm⟩

theorem matchedIdOf_some {Geom V : Type} {vops : ValueOps V} {p : ExcludeParams}
    {md : MatchData Geom} {f : Feature Geom V} {mid : Nat}
    (h : matchedIdOf vops p md f = some mid) :
    ∃ v, f.joinValue = some v ∧
      dGet md.matchFeatures (normalize vops p.caseSensitive v) = some mid := by
  unfold matchedIdOf at h
  rcases Option.eq_none_or_eq_some f.joinValue with hv | ⟨v, hv⟩
  · simp [hv] at h
  · simp only [hv] at h; exact ⟨v, hv, h⟩

theorem excludeAnalysis_toDelete {Geom V : Type} (ops : GeomOps Geom)
    (vops : ValueOps V) (p : ExcludeParams) (s m : Layer Geom V) :
    (excludeAnalysis ops vops p s m).toDelete =
      (s.features.filter
        (deletesF vops p
          (buildMatchData ops vops p (needsTransform p m) m.features))).map (·.fid) := by
  simp only [excludeAnalysis]
  rw [processSource_eq]

theorem excludeAnalysis_diffGeom {Geom V : Type} (ops : GeomOps Geom)
    (vops : ValueOps V) (p : ExcludeParams) (s m : Layer Geom V) :
    (excludeAnalysis ops vops p s m).diffGeom =
      (s.features.filter
        (diffF ops vops p (needsTransform p s)
          (buildMatchData ops vops p (needsTransform p m) m.features))).map (·.fid) := by
  simp only [excludeAnalysis]
  rw [processSource_eq]

theorem excludeAnalysis_compared {Geom V : Type} (ops : GeomOps Geom)
    (vops : ValueOps V) (p : ExcludeParams) (s m : Layer Geom V) :
    (excludeAnalysis ops vops p s m).compared =
      s.features.filterMap
        (comparedPairOf ops vops p (needsTransform p s)
          (buildMatchData ops vops p (needsTransform p m) m.features)) := by
  simp only [excludeAnalysis]
  rw [processSource_eq]

end FeatureExcluder

namespace FeatureExcluder

/-- C1: In the feature excluder, when geometry comparison is enabled and
the tolerance is positive, a matched source/match geometry pair is judged
geometrically equal under the "intersects" relation iff the source
geometry intersects the match geometry buffered by the tolerance or the
match geometry intersects the source geometry buffered by the tolerance,
and under the "contains" relation iff the buffered source geometry
contains the match geometry; every pair judged different contributes the
source feature id to the different-geometry list. -/
theorem c1_buffered_spatial_relations {Geom V : Type} (ops : GeomOps Geom)
    (vops : ValueOps V) (p : ExcludeParams) (s m : Layer Geom V)
    (hcg : p.checkGeometry = true) (htol : 0 < p.tolerance) :
    (∀ sg mg : Geom, p.spatialRelation = "intersects" →
      (isDifferent ops p.spatialRelation p.tolerance sg mg = false ↔
        (ops.intersectsG sg (ops.bufferG mg p.tolerance 5) = true ∨
         ops.intersectsG mg (ops.bufferG sg p.tolerance 5) = true))) ∧
    (∀ sg mg : Geom, p.spatialRelation = "contains" →
      (isDifferent ops p.spatialRelation p.tolerance sg mg = false ↔
        ops.containsG (ops.bufferG sg p.tolerance 5) mg = true)) ∧
    (∀ f ∈ s.features,
      diffF ops vops p (needsTransform p s)
        (buildMatchData ops vops p (needsTransform p m) m.features) f = true →
      f.fid ∈ (excludeAnalysis ops vops p s m).diffGeom) := by
  have hnotle : ¬ p.tolerance ≤ 0 := by omega
  refine ⟨?_, ?_, ?_⟩
  · intro sg mg hrel
    rw [hrel]
    unfold isDifferent
    simp [hnotle]
    by_cases h1 : ops.intersectsG sg (ops.bufferG mg p.tolerance 5) = true <;> simp [h1]
  · intro sg mg hrel
    rw [hrel]
    unfold isDifferent
    have hne : ("contains" : String) ≠ "intersects" := by decide
    simp [hnotle, hne]
  · intro f hf hdiff
    rw [excludeAnalysis_diffGeom]
    exact List.mem_map.mpr ⟨f, List.mem_filter.mpr ⟨hf, hdiff⟩, rfl⟩

/-- Witness for C1 on concrete data: the parameters satisfy the
hypotheses, and source feature 2 — matched by value but with a geometry
judged different under "intersects" with tolerance 1 — lands in the
different-geometry list. -/
theorem c1_witness :
    pSample.checkGeometry = true ∧ (0 : Int) < pSample.tolerance ∧
    (2 : Nat) ∈ (excludeAnalysis sampleOps sampleVOps pSample srcSample mtcSample).diffGeom :=
  ⟨rfl, by decide,
    (c1_buffered_spatial_relations sampleOps sampleVOps pSample srcSample mtcSample
        rfl (by decide)).2.2
      ⟨2, some 5, some 50⟩ (by decide) (by decide)⟩

/-- C2: when geometry comparison is enabled, every geometry that takes
part in a comparison comes from a feature of the respective layer, is
transformed to EPSG:32632 exactly when that layer's CRS is not
EPSG:32632, and the analysis leaves both layers unchanged. -/
theorem c2_reprojected_comparisons {Geom V : Type} (ops : GeomOps Geom)
    (vops : ValueOps V) (p : ExcludeParams) (s m : Layer Geom V)
    (hcg : p.checkGeometry = true) :
    (excludeAnalysis ops vops p s m).sourceAfter = s ∧
    (excludeAnalysis ops vops p s m).matchAfter = m ∧
    ∀ pr ∈ (excludeAnalysis ops vops p s m).compared,
      (∃ f ∈ s.features, ∃ g, f.geom = some g ∧
        pr.1 = if s.crsAuthid ≠ "EPSG:32632" then ops.transformSource g else g) ∧
      (∃ f ∈ m.features, ∃ g, f.geom = some g ∧
        pr.2 = if m.crsAuthid ≠ "EPSG:32632" then ops.transformMatch g else g) := by
  refine ⟨rfl, rfl, ?_⟩
  intro pr hpr
  rw [excludeAnalysis_compared] at hpr
  obtain ⟨f, hmem, hcp⟩ := List.mem_filterMap.mp hpr
  obtain ⟨mid, hmi, -, sg0, hg, -, hpr1, hmg⟩ := comparedPairOf_some hcp
  have hifs : (if needsTransform p s then ops.transformSource sg0 else sg0) =
      (if s.crsAuthid ≠ "EPSG:32632" then ops.transformSource sg0 else sg0) := by
    simp [needsTransform, hcg]
  constructor
  · exact ⟨f, hmem, sg0, hg, by rw [hpr1, hifs]⟩
  · rw [lookupGeom_buildMatchData] at hmg
    obtain ⟨mf, hmfmem, hmf⟩ := List.exists_of_findSome?_eq_some hmg
    have hmf2 : storedGeomOf ops p (needsTransform p m) mf = some pr.2 := by
      by_cases hfid : mf.fid = mid
      · rw [if_pos hfid] at hmf; exact hmf
      · rw [if_neg hfid] at hmf; cases hmf
    obtain ⟨-, -, g0, hg0, -, hpr2⟩ := storedGeomOf_some hmf2
    have hifm : (if needsTransform p m then ops.transformMatch g0 else g0) =
        (if m.crsAuthid ≠ "EPSG:32632" then ops.transformMatch g0 else g0) := by
      simp [needsTransform, hcg]
    exact ⟨mf, List.mem_reverse.mp hmfmem, g0, hg0, by rw [hpr2, hifm]⟩

/-- Witness for C2 on concrete data: geometry comparison is on, the
analysis returns the layers unchanged, and the single compared pair
consists of the source geometry untransformed (metric CRS) and the match
geometry transformed (non-metric CRS). -/
theorem c2_witness :
    pSample.checkGeometry = true ∧
    (excludeAnalysis sampleOps sampleVOps pSample srcSample mtcOther).sourceAfter = srcSample ∧
    (excludeAnalysis sampleOps sampleVOps pSample srcSample mtcOther).matchAfter = mtcOther :=
  ⟨rfl,
    (c2_reprojected_comparisons sampleOps sampleVOps pSample srcSample mtcOther rfl).1,
    (c2_reprojected_comparisons sampleOps sampleVOps pSample srcSample mtcOther rfl).2.1⟩

/-- C9: NULL join values never participate in matching — the lookup built
from the match layer only contains ids of features with a non-NULL join
value, and a source feature with a NULL join value is never proposed for
deletion. -/
theorem c9_null_join_skipped {Geom V : Type} (ops : GeomOps Geom)
    (vops : ValueOps V) (p : ExcludeParams) (s m : Layer Geom V)
    (hs : (s.features.map (·.fid)).Nodup) :
    (∀ key i,
      dGet (buildMatchData ops vops p (needsTransform p m) m.features).matchFeatures key =
        some i →
      ∃ f ∈ m.features, f.fid = i ∧ ∃ v, f.joinValue = some v) ∧
    (∀ f ∈ s.features, f.joinValue = none →
      f.fid ∉ (excludeAnalysis ops vops p s m).toDelete) := by
  constructor
  · intro key i hkey
    rw [lookup_buildMatchData] at hkey
    obtain ⟨lf, hlf, hfid⟩ := Option.map_eq_some'.mp hkey
    unfold lastWithKey at hlf
    have hmem : lf ∈ m.features := List.mem_reverse.mp (List.mem_of_find?_eq_some hlf)
    have hpred := List.find?_some hlf
    rw [decide_eq_true_eq] at hpred
    unfold keyOf at hpred
    obtain ⟨v, hv, -⟩ := Option.map_eq_some'.mp hpred
    exact ⟨lf, hmem, hfid, v, hv⟩
  · intro f hf hnull hmem
    rw [excludeAnalysis_toDelete] at hmem
    obtain ⟨f', hf', hfid⟩ := List.mem_map.mp hmem
    obtain ⟨hf'mem, hdel⟩ := List.mem_filter.mp hf'
    have hff : f' = f := List.inj_on_of_nodup_map hs hf'mem hf hfid
    subst hff
    unfold deletesF matchedIdOf at hdel
    rw [hnull] at hdel
    simp at hdel

/-- Witness for C9 on concrete data: the source layer's ids are distinct,
and its feature 7, whose join value is NULL, is not proposed for deletion
even though its geometry exists. -/
theorem c9_witness :
    (srcNull.features.map (·.fid)).Nodup ∧
    (7 : Nat) ∉ (excludeAnalysis sampleOps sampleVOps pSample srcNull mtcOther).toDelete :=
  ⟨by decide,
    (c9_null_join_skipped sampleOps sampleVOps pSample srcNull mtcOther (by decide)).2
      ⟨7, none, some 3⟩ (by decide) rfl⟩

/-- C10: when several match features share a normalised join value, the
lookup retains only the last one enumerated, and every geometry comparison
of a matching source feature uses that last feature's stored geometry. -/
theorem c10_last_duplicate_wins {Geom V : Type} (ops : GeomOps Geom)
    (vops : ValueOps V) (p : ExcludeParams) (s m : Layer Geom V)
    (hnd : (m.features.map (·.fid)).Nodup) :
    (∀ key,
      dGet (buildMatchData ops vops p (needsTransform p m) m.features).matchFeatures key =
        (lastWithKey vops p m.features key).map (·.fid)) ∧
    (∀ f ∈ s.features, ∀ pr,
      comparedPairOf ops vops p (needsTransform p s)
        (buildMatchData ops vops p (needsTransform p m) m.features) f = some pr →
      ∃ v, f.joinValue = some v ∧
        ∃ lastF, lastWithKey vops p m.features (normalize vops p.caseSensitive v) =
            some lastF ∧
          storedGeomOf ops p (needsTransform p m) lastF = some pr.2) := by
  constructor
  · intro key
    exact lookup_buildMatchData ops vops p (needsTransform p m) m.features key
  · intro f hf pr hcp
    obtain ⟨mid, hmi, -, sg0, hg, -, hpr1, hmg⟩ := comparedPairOf_some hcp
    obtain ⟨v, hv, hdget⟩ := matchedIdOf_some hmi
    rw [lookup_buildMatchData] at hdget
    obtain ⟨lastF, hlast, hfid⟩ := Option.map_eq_some'.mp hdget
    refine ⟨v, hv, lastF, hlast, ?_⟩
    have hlastmem : lastF ∈ m.features.reverse := by
      unfold lastWithKey at hlast
      exact List.mem_of_find?_eq_some hlast
    have hndrev : ((m.features.reverse).map (·.fid)).Nodup := by
      rw [List.map_reverse]
      exact List.nodup_reverse.mpr hnd
    rw [lookupGeom_buildMatchData] at hmg
    have huniq : ∀ x ∈ m.features.reverse,
        (if x.fid = mid then storedGeomOf ops p (needsTransform p m) x else none) ≠ none →
        x = lastF := by
      intro x hx hxn
      by_cases hxf : x.fid = mid
      · exact List.inj_on_of_nodup_map hndrev hx hlastmem (by rw [hxf, hfid])
      · rw [if_neg hxf] at hxn
        exact absurd rfl hxn
    have := findSome?_eq_of_unique (m.features.reverse)
      (fun x => if x.fid = mid then storedGeomOf ops p (needsTransform p m) x else none)
      lastF hlastmem huniq
    rw [this] at hmg
    simp only [hfid, if_pos] at hmg
    exact hmg

/-- Witness for C10 on concrete data: two match features (ids 1 and 2)
share join value 5; the lookup retains id 2, the later one. -/
theorem c10_witness :
    (mtcDup.features.map (·.fid)).Nodup ∧
    dGet (buildMatchData sampleOps sampleVOps pSample (needsTransform pSample mtcDup)
        mtcDup.features).matchFeatures "5" = some 2 := by
  have h := (c10_last_duplicate_wins sampleOps sampleVOps pSample srcDup mtcDup
    (by decide)).1 "5"
  refine ⟨by decide, ?_⟩
  rw [h]
  decide

end FeatureExcluder

namespace OverlapsCounter

/-- C6: the geoprocessing model checks the host feedback's cancel flag
between each of its seven processing steps (six checks); when the flag is
first set at check `k` it returns the empty result dictionary
immediately, having run exactly the first `k` child algorithms and none
after; when never set, all seven run and the single result key is
produced. -/
theorem c6_cancellation_between_steps (isCanceled : Nat → Bool) :
    ((∀ k, 1 ≤ k → k ≤ 6 → isCanceled k = false) →
      processAlgorithm isCanceled = (childAlgs, ["InfrastrutturaConNcavi"])) ∧
    (∀ k, 1 ≤ k → k ≤ 6 → isCanceled k = true →
      (∀ j, 1 ≤ j → j < k → isCanceled j = false) →
      processAlgorithm isCanceled = (childAlgs.take k, [])) := by
  constructor
  · intro h
    have h1 := h 1 (by omega) (by omega)
    have h2 := h 2 (by omega) (by omega)
    have h3 := h 3 (by omega) (by omega)
    have h4 := h 4 (by omega) (by omega)
    have h5 := h 5 (by omega) (by omega)
    have h6 := h 6 (by omega) (by omega)
    simp [processAlgorithm, childAlgs, h1, h2, h3, h4, h5, h6]
  · intro k hk1 hk6 hck hprev
    interval_cases k
    · simp [processAlgorithm, childAlgs, hck]
    · have h1 := hprev 1 (by omega) (by omega)
      simp [processAlgorithm, childAlgs, h1, hck]
    · have h1 := hprev 1 (by omega) (by omega)
      have h2 := hprev 2 (by omega) (by omega)
      simp [processAlgorithm, childAlgs, h1, h2, hck]
    · have h1 := hprev 1 (by omega) (by omega)
      have h2 := hprev 2 (by omega) (by omega)
      have h3 := hprev 3 (by omega) (by omega)
      simp [processAlgorithm, childAlgs, h1, h2, h3, hck]
    · have h1 := hprev 1 (by omega) (by omega)
      have h2 := hprev 2 (by omega) (by omega)
      have h3 := hprev 3 (by omega) (by omega)
      have h4 := hprev 4 (by omega) (by omega)
      simp [processAlgorithm, childAlgs, h1, h2, h3, h4, hck]
    · have h1 := hprev 1 (by omega) (by omega)
      have h2 := hprev 2 (by omega) (by omega)
      have h3 := hprev 3 (by omega) (by omega)
      have h4 := hprev 4 (by omega) (by omega)
      have h5 := hprev 5 (by omega) (by omega)
      simp [processAlgorithm, childAlgs, h1, h2, h3, h4, h5, hck]

/-- Witness for C6: with a flag that becomes set from check 3 on, exactly
the first three child algorithms run and the result is empty. -/
theorem c6_witness :
    processAlgorithm (fun n => decide (3 ≤ n)) = (childAlgs.take 3, []) :=
  (c6_cancellation_between_steps (fun n => decide (3 ≤ n))).2 3 (by omega) (by omega)
    (by decide) (fun j hj1 hj3 => by
      apply decide_eq_false
      omega)

end OverlapsCounter

namespace BatchConverter

theorem set_append_len {α : Type} (A : List α) (b : α) (B : List α) (x : α) :
    (A ++ b :: B).set A.length x = A ++ x :: B := by
  induction A with
  | nil => rfl
  | cons a A ih => simp [ih]

theorem convertLoop_counts (ocs : List FileOutcome) : ∀ (row : Nat) (st : LoopState),
    (convertLoop row st ocs).successCount + (convertLoop row st ocs).errorCount =
      st.successCount + st.errorCount + ocs.length := by
  induction ocs with
  | nil => intro row st; simp [convertLoop]
  | cons oc rest ih =>
    intro row st
    rw [convertLoop, ih]
    cases oc <;> (simp [processRow]; omega)

theorem convertLoop_success (ocs : List FileOutcome) : ∀ (row : Nat) (st : LoopState),
    (convertLoop row st ocs).successCount =
      st.successCount + ocs.countP (fun oc => decide (oc = FileOutcome.ok)) := by
  induction ocs with
  | nil => intro row st; simp [convertLoop]
  | cons oc rest ih =>
    intro row st
    rw [convertLoop, ih]
    cases oc <;> (simp [processRow, List.countP_cons]; try omega)

theorem convertLoop_log (ocs : List FileOutcome) : ∀ (row : Nat) (st : LoopState),
    (convertLoop row st ocs).log = st.log ++ ocs.filterMap msgOf := by
  induction ocs with
  | nil => intro row st; simp [convertLoop]
  | cons oc rest ih =>
    intro row st
    rw [convertLoop, ih]
    cases oc <;> simp [processRow, msgOf, List.filterMap_cons]

theorem convertLoop_statuses (ocs : List FileOutcome) :
    ∀ (A B : List String) (st : LoopState),
    st.statuses = A ++ B → B.length = ocs.length →
    (convertLoop A.length st ocs).statuses = A ++ ocs.map statusOf := by
  induction ocs with
  | nil =>
    intro A B st h hlen
    have hB : B = [] := List.length_eq_zero.mp hlen
    subst hB
    simp [convertLoop, h]
  | cons oc rest ih =>
    intro A B st h hlen
    cases B with
    | nil => simp at hlen
    | cons b B =>
      rw [convertLoop]
      have hpr : (processRow st A.length oc).statuses = (A ++ [statusOf oc]) ++ B := by
        cases oc <;>
          simp [processRow, statusOf, h, set_append_len, List.append_assoc]
      have hlen2 : B.length = rest.length := by
        simpa using hlen
      have hstep := ih (A ++ [statusOf oc]) B (processRow st A.length oc) hpr hlen2
      rw [List.length_append] at hstep
      simp only [List.length_cons, List.length_nil, Nat.zero_add] at hstep
      rw [hstep]
      simp [List.append_assoc]

/-- C5: a per-file failure during batch conversion is non-fatal — every
row ends marked as a pure function of its own outcome ("Completato" on
success, "Errore" otherwise, so a failure marks only that row and the
loop continues through all files), each failure appends its message to
the log, the success count counts exactly the successful rows, the
success and error counts sum to the number of files processed, and the
completion message reports exactly those two counts. -/
theorem c5_per_file_failures_nonfatal (outcomes : List FileOutcome) :
    (runConversion outcomes).1.successCount + (runConversion outcomes).1.errorCount =
      outcomes.length ∧
    (runConversion outcomes).2 =
      ((runConversion outcomes).1.successCount, (runConversion outcomes).1.errorCount) ∧
    (runConversion outcomes).1.statuses = outcomes.map statusOf ∧
    (runConversion outcomes).1.log = outcomes.filterMap msgOf ∧
    (runConversion outcomes).1.successCount =
      outcomes.countP (fun oc => decide (oc = FileOutcome.ok)) := by
  refine ⟨?_, rfl, ?_, ?_, ?_⟩
  · unfold runConversion
    rw [convertLoop_counts]
    simp
  · unfold runConversion
    have h := convertLoop_statuses outcomes []
      (outcomes.map (fun _ => "In attesa"))
      ⟨0, 0, outcomes.map (fun _ => "In attesa"), []⟩ rfl (by simp)
    simpa using h
  · unfold runConversion
    rw [convertLoop_log]
    simp
  · unfold runConversion
    rw [convertLoop_success]
    simp

end BatchConverter

namespace BatchConverter

/-- Counterexample to C3: on `mapinfoCounterEnv` — direct ogr2ogr fails,
the intermediate GeoJSON is produced but fails host layer validation, and
the final ogr2ogr on it would produce the output file — the code returns
failure without attempting the third strategy, while the claim ("failure
only if all three fail") demands success. -/
theorem c3_counterexample :
    convert_to_mapinfo mapinfoCounterEnv = false ∧
    mapinfoClaimResult mapinfoCounterEnv = true := by
  decide

/-- C3 (amended): `convert_to_mapinfo` tries the three strategies in
order and returns success at the first that produces the output file, and
never raises (it is a total Boolean function of the oracle) — but any
broken preparation step of strategy 2 (invalid input layer, invalid or
empty sanitised layer, failed GeoJSON write, missing temp file, or temp
GeoJSON failing layer validation) returns failure immediately, without
attempting strategy 3; strategy 3 is attempted exactly when the prepared
GeoJSON exists and the processing step raised or left no output file. -/
theorem c3_amended_fallback_chain (e : MapinfoEnv) :
    convert_to_mapinfo e =
      (e.ogrDirectOk ||
        (e.inputLayerValid && e.sanitizedOk && e.geojsonWriteOk && e.tempExists &&
          e.tempLayerValid &&
          (if e.processingRaises then e.ogrFromGeojsonOk
           else (e.outputExists || e.ogrFromGeojsonOk)))) := by
  obtain ⟨a, b, c, d, f, g, h, i, j⟩ := e
  revert a b c d f g h i j
  decide

end BatchConverter

namespace ErrHandling

/-- Counterexample to C4: in the layer renamer, an exception raised while
handling a layer (the per-layer `except` re-reads `layer.name()`, which
raises again for a broken layer object) propagates to the caller, no
error dialog is shown, and the controls are left disabled — the renamer's
run button has no broad handler and its re-enable is not in a `finally`. -/
theorem c4_counterexample :
    (renameLayersHandler [(mRaise "boom", mRaise "boom2")] s0).1 =
      Except.error "boom2" ∧
    ((renameLayersHandler [(mRaise "boom", mRaise "boom2")] s0).2).controlsEnabled =
      false ∧
    ((renameLayersHandler [(mRaise "boom", mRaise "boom2")] s0).2).dialogs = [] := by
  refine ⟨rfl, rfl, rfl⟩

/-- C4 (amended): for the feature excluder, batch converter and layer
loader run buttons, whose operation body runs inside
`try/except/finally`, any exception from the body is caught (the handler
never propagates it), surfaced as a modal error dialog, and the controls
are re-enabled afterwards in all cases — success or error — regardless of
what the body does.  (The layer renamer lacks this structure; see the
counterexample.) -/
theorem c4_amended_broad_handlers (body : M) (s : UIState) :
    ((excludeFeaturesHandler body s).1 = Except.ok () ∧
      ((excludeFeaturesHandler body s).2).controlsEnabled = true ∧
      ∀ e t, body { s with controlsEnabled := false } = (Except.error e, t) →
        ("Error: " ++ e) ∈ ((excludeFeaturesHandler body s).2).dialogs) ∧
    ((startConversionHandler body s).1 = Except.ok () ∧
      ((startConversionHandler body s).2).controlsEnabled = true ∧
      ∀ e t, body { s with controlsEnabled := false } = (Except.error e, t) →
        ("Errore: " ++ e) ∈ ((startConversionHandler body s).2).dialogs) ∧
    ((loadLayersHandler body s).1 = Except.ok () ∧
      ((loadLayersHandler body s).2).controlsEnabled = true ∧
      ∀ e t, body { s with controlsEnabled := false } = (Except.error e, t) →
        ("Errore: " ++ e) ∈ ((loadLayersHandler body s).2).dialogs) := by
  refine ⟨?_, ?_, ?_⟩ <;>
    (simp only [excludeFeaturesHandler, startConversionHandler, loadLayersHandler,
        mSeq, mTry, mFinally, setControls, showDialog]
     rcases hb : body { s with controlsEnabled := false } with ⟨r, t⟩
     cases r with
     | ok u =>
       refine ⟨rfl, rfl, ?_⟩
       intro e t' he
       simp at he
     | error e =>
       refine ⟨rfl, rfl, ?_⟩
       intro e' t' he
       injection he with h1 h2
       injection h1 with h1
       subst h1
       simp)

/-- Witness for C4 (amended): a body that raises "x" from the excluder's
run button yields a shown error dialog, an `ok` return, and re-enabled
controls. -/
theorem c4_amended_witness :
    (excludeFeaturesHandler (mRaise "x") s0).1 = Except.ok () ∧
    ((excludeFeaturesHandler (mRaise "x") s0).2).controlsEnabled = true ∧
    ("Error: " ++ "x") ∈ ((excludeFeaturesHandler (mRaise "x") s0).2).dialogs := by
  have h := c4_amended_broad_handlers (mRaise "x") s0
  exact ⟨h.1.1, h.1.2.1, h.1.2.2 "x" ⟨false, []⟩ rfl⟩

end ErrHandling

namespace LayerLoader

/-- Counterexample to C7: the layer loader's `created_groups` set is
operation data retained in the tool's own state after a user action
completes — after loading one archive with the group option on it holds
that archive's group, and a second invocation accumulates on top of it
instead of starting clean. -/
theorem c7_counterexample :
    (loadLayersArchive true 1 0 ⟨[]⟩).2.createdGroups = [1] ∧
    (loadLayersArchive true 2 0 (loadLayersArchive true 1 0 ⟨[]⟩).2).2.createdGroups =
      [1, 2] := by
  decide

/-- C7 (amended): the loader's retained `created_groups` state is
write-only — an archive-loading action's result does not depend on it
(the loaded count is returned unchanged), and the action only adds the
new group id to it when the group option is on; `load_layer` resets it.
So the retained data never influences a later operation's outcome, but it
is not discarded when the action ends. -/
theorem c7_amended_retained_state (cg : Bool) (gid loaded : Nat) (st : LoaderState) :
    (loadLayersArchive cg gid loaded st).1 = loaded ∧
    (loadLayersArchive cg gid loaded st).2.createdGroups =
      (if cg then insertGroup st.createdGroups gid else st.createdGroups) ∧
    (loadLayerReset st).createdGroups = [] := by
  unfold loadLayersArchive processCompressedFile loadLayerReset
  cases cg <;> simp

end LayerLoader
